import Mathlib

/-!
# Mappability-diff: shallow embedding and verification

Shallow embedding of the core pipeline of `src/mappability_diff.py` and
`src/visualise.py`:

* Python floats are modelled as exact rationals (`ℚ`); a float NaN (as
  produced by pandas for `0/0`) is modelled as `none : Option ℚ`.
* NumPy arrays / Python lists of floats are `List ℚ`.
* Python dicts are association lists built with insertion-order /
  overwrite-in-place semantics (`dictInsert`, `buildDict`).
* A raised Python exception (KeyError, ValueError, IndexError,
  StopIteration, pandas KeyError) is `Except.error ()`.
* Python `str.split(sep)` for a one-character separator, substring
  containment (`in`), and lexicographic string comparison are embedded
  as structurally recursive functions on `List Char` so that every
  definition evaluates by kernel reduction.
-/

/-- Lexicographic (code-point) `≤` on character lists, as Python compares
strings. -/
def pyLeCh : List Char → List Char → Bool
  | [], _ => true
  | _ :: _, [] => false
  | a :: as, b :: bs =>
    if a < b then true else if b < a then false else pyLeCh as bs

/-- Python string `≤` (lexicographic by code point). -/
def strLe (a b : String) : Prop := pyLeCh a.data b.data = true

instance : DecidableRel strLe :=
  fun a b => inferInstanceAs (Decidable (pyLeCh a.data b.data = true))

/-- Python string `<`: `≤` and distinct. -/
def strLt (a b : String) : Prop := strLe a b ∧ a ≠ b

/-- Python `sorted` on a list of strings (the sorted output of a list of
strings is unique, so any comparison sort embeds it). -/
def sortStrings (l : List String) : List String := List.insertionSort strLe l

/-- Python `s.split(sep)` for a single-character separator, on the
underlying character list.  `"".split(c) = ['']`, and separators at the
ends produce empty pieces, exactly as in Python. -/
def splitCh (sep : Char) : List Char → List (List Char)
  | [] => [[]]
  | c :: cs =>
    match splitCh sep cs with
    | [] => [[]]
    | p :: ps => if c = sep then [] :: p :: ps else (c :: p) :: ps

/-- `needle` is a prefix of `hay` (Bool). -/
def isPrefixCh : List Char → List Char → Bool
  | [], _ => true
  | _ :: _, [] => false
  | a :: as, b :: bs => a == b && isPrefixCh as bs

/-- Python substring containment `needle in hay`. -/
def containsSub (needle : List Char) : List Char → Bool
  | [] => isPrefixCh needle []
  | c :: cs => isPrefixCh needle (c :: cs) || containsSub needle cs

/-- The characters of the Python literal `'gene_id'`. -/
def geneIdChars : List Char := ['g', 'e', 'n', 'e', '_', 'i', 'd']

/-- `os.path.basename(f).split("_")[0]`: the k-mer size label derived
from a track file path (`analyze_mappability_changes`, line 75). -/
def kmerLabel (f : String) : String :=
  String.mk ((splitCh '_' ((splitCh '/' f.data).getLastD [])).headD [])

/-- One Python dict assignment `d[k] = v`: overwrite in place when the
key is present, append otherwise. -/
def dictInsert (d : List (String × α)) (k : String) (v : α) : List (String × α) :=
  if d.any (fun p => p.1 == k) then
    d.map (fun p => if p.1 == k then (p.1, v) else p)
  else d ++ [(k, v)]

/-- Build a Python dict from key/value assignments performed in order. -/
def buildDict (l : List (String × α)) : List (String × α) :=
  l.foldl (fun d p => dictInsert d p.1 p.2) []

/-- A mapping from chromosome name to its per-base scores
(`Dict[str, np.ndarray]` in the source). -/
abbrev TrackSet := List (String × List ℚ)

/-- Traverse a list with a fallible function, stopping at the first
error: the embedding of a Python loop whose body may raise. -/
def mapE (f : α → Except Unit β) : List α → Except Unit (List β)
  | [] => .ok []
  | a :: l =>
    match f a, mapE f l with
    | .error e, _ => .error e
    | .ok _, .error e => .error e
    | .ok b, .ok bs => .ok (b :: bs)

/-- `np.subtract(x, y)` on one-dimensional arrays: elementwise when the
lengths agree, NumPy broadcasting when either side has length one, and a
raised ValueError otherwise. -/
def npSubtract (x y : List ℚ) : Except Unit (List ℚ) :=
  if x.length = y.length then .ok (List.zipWith (fun u v => u - v) x y)
  else
    match x, y with
    | [u], _ => .ok (y.map (fun v => u - v))
    | _, [v] => .ok (x.map (fun u => u - v))
    | _, _ => .error ()

/-- One iteration of the loop of `compare_mappability` (line 58):
`diff[chrom] = np.subtract(data2[chrom], data1[chrom])`; looking up a
chromosome of `data1` that is missing from `data2` raises a KeyError. -/
def compareChrom (data2 : TrackSet) (p : String × List ℚ) : Except Unit (String × List ℚ) :=
  match List.lookup p.1 data2 with
  | none => .error ()
  | some b =>
    match npSubtract b p.2 with
    | .error e => .error e
    | .ok d => .ok (p.1, d)

/-- `compare_mappability(data1, data2)` (`src/mappability_diff.py`,
lines 43-59): for every chromosome of `data1`, subtract its `data1`
scores from its `data2` scores. -/
def compare_mappability (data1 data2 : TrackSet) : Except Unit TrackSet :=
  mapE (compareChrom data2) data1

/-- The index pairs `i < j` of the double loop in
`analyze_mappability_changes` (lines 80-82), as the ordered list of
label pairs. -/
def allPairs : List String → List (String × String)
  | [] => []
  | k :: ks => ks.map (fun k2 => (k, k2)) ++ allPairs ks

/-- The comparison key `f"{k1}_vs_{k2}"`. -/
def vsKey (k1 k2 : String) : String := k1 ++ "_vs_" ++ k2

/-- One iteration of the double loop of `analyze_mappability_changes`
(lines 82-84): compare the two loaded track sets and store the result
under the key `f"{k1}_vs_{k2}"`. -/
def comparePair (data : List (String × TrackSet)) (p : String × String) :
    Except Unit (String × TrackSet) :=
  match compare_mappability ((List.lookup p.1 data).getD [])
      ((List.lookup p.2 data).getD []) with
  | .error e => .error e
  | .ok diff => .ok (vsKey p.1 p.2, diff)

/-- Line 75: the per-label dict of loaded tracks,
`{os.path.basename(f).split("_")[0]: load_bigwig(f) for f in bigwig_files}`. -/
def loadedData (loader : String → TrackSet) (files : List String) :
    List (String × TrackSet) :=
  buildDict (files.map (fun f => (kmerLabel f, loader f)))

/-- `analyze_mappability_changes(bigwig_files)` (lines 62-86).  The
track loader (`load_bigwig`, an external collaborator doing file I/O) is
passed in as a function from path to track set.  Returns the dict of
pairwise comparison results together with the per-label data dict. -/
def analyze_mappability_changes (loader : String → TrackSet) (files : List String) :
    Except Unit (List (String × TrackSet) × List (String × TrackSet)) :=
  match mapE (comparePair (loadedData loader files))
      (allPairs (sortStrings ((loadedData loader files).map Prod.fst))) with
  | .error e => .error e
  | .ok results => .ok (buildDict results, loadedData loader files)

/-- Normalise a Python index for a sequence of length `n`: negative
indices count from the end, then the result is clamped to `[0, n]`. -/
def pyIdx (n : Nat) (i : Int) : Nat :=
  min (if i < 0 then i + n else i).toNat n

/-- Python list slicing `xs[s:e]`. -/
def pySlice (xs : List ℚ) (s e : Int) : List ℚ :=
  (xs.drop (pyIdx xs.length s)).take (pyIdx xs.length e - pyIdx xs.length s)

/-- One row of the annotation table produced by the GTF loader
(external collaborator): feature type, chromosome, 1-based inclusive
start and end, and the raw attribute string.  The source's `end` column
is named `stop` because `end` is a Lean keyword. -/
structure Feature where
  type : String
  seq_id : String
  start : Int
  stop : Int
  attributes : String
deriving DecidableEq, Repr

/-- The gene-identifier extraction of `calculate_gene_mappability`
(line 121):
`next(i.split(' ')[1] for i in exon['attributes'].split(';') if 'gene_id' in i)`.
`none` models the raised StopIteration (no `;`-segment contains
`gene_id`) or IndexError (the first matching segment has no second
space-separated token). -/
def extract_gene_id (attrs : String) : Option String :=
  ((splitCh ';' attrs.data).find? (fun seg => containsSub geneIdChars seg)).bind
    (fun seg => ((splitCh ' ' seg)[1]?).map String.mk)

/-- The mappability threshold `0.9` of line 126, as an exact rational. -/
def mapThreshold : ℚ := 9 / 10

/-- The loop body of `calculate_gene_mappability` (lines 114-132) for a
single exon row: `.ok none` when the feature is skipped (`continue`, or
not appended because its chromosome is absent), `.error ()` when the
gene-identifier extraction raises, and `.ok (some (gene_id, total_bases,
mappable_bases))` when a record is appended. -/
def processExon (data : TrackSet) (f : Feature) : Except Unit (Option (String × Nat × Nat)) :=
  if containsSub geneIdChars f.attributes.data then
    match extract_gene_id f.attributes with
    | none => .error ()
    | some gid =>
      match List.lookup f.seq_id data with
      | some scores =>
        let exon_map := pySlice scores (f.start - 1) f.stop
        .ok (some (gid, exon_map.length, exon_map.countP (fun q => decide (mapThreshold < q))))
      | none => .ok none
  else .ok none

/-- One row of the output dataframe of `calculate_gene_mappability`:
`mappability_ratio = none` models the float NaN that pandas produces
for `0 / 0`. -/
structure GeneRecord where
  gene_id : String
  total_exon_bases : Nat
  mappable_bases : Nat
  mappability_ratio : Option ℚ
deriving DecidableEq, Repr

/-- Sum of the `total_bases` of all records carrying gene `g`
(the `total_exon_bases` column of `groupby('gene_id').sum()`). -/
def sumTotals (recs : List (String × Nat × Nat)) (g : String) : Nat :=
  ((recs.filter (fun p => p.1 == g)).map (fun p => p.2.1)).sum

/-- Sum of the `mappable_bases` of all records carrying gene `g`. -/
def sumMappables (recs : List (String × Nat × Nat)) (g : String) : Nat :=
  ((recs.filter (fun p => p.1 == g)).map (fun p => p.2.2)).sum

/-- `mappable_bases / total_exon_bases` as pandas computes it: NaN
(modelled `none`) on `0 / 0`, the exact quotient otherwise. -/
def geneRatio (t m : Nat) : Option ℚ :=
  if t = 0 then none else some ((m : ℚ) / t)

/-- Lines 134-136: `pd.DataFrame(...).groupby(['gene_id']).sum()`
followed by the ratio column.  `groupby` sorts the distinct gene
identifiers and sums each group. -/
def aggregateRecords (recs : List (String × Nat × Nat)) : List GeneRecord :=
  (sortStrings ((recs.map (fun p => p.1)).dedup)).map
    (fun g =>
      ⟨g, sumTotals recs g, sumMappables recs g,
        geneRatio (sumTotals recs g) (sumMappables recs g)⟩)

/-- `calculate_gene_mappability(data, gtf_data)` (lines 100-137).  The
GTF loader is an external collaborator; its output is the list of
feature rows.  `pd.DataFrame([]).groupby(['gene_id'])` raises a
KeyError, hence the error when no exon contributed a record. -/
def calculate_gene_mappability (data : TrackSet) (gtf : List Feature) :
    Except Unit (List GeneRecord) :=
  match mapE (processExon data) (gtf.filter (fun f => f.type == "exon")) with
  | .error e => .error e
  | .ok opts =>
    if (opts.filterMap id).isEmpty then .error ()
    else .ok (aggregateRecords (opts.filterMap id))

/-- Stated from the spec, for the refinement claim C4: the 0-based
half-open window `[start-1, end)` of a chromosome's score sequence,
written with plain drop/take as the spec describes it (no Python
index normalisation). -/
def specWindow (scores : List ℚ) (start stop : Int) : List ℚ :=
  (scores.drop (start - 1).toNat).take (stop - (start - 1)).toNat

/-- Stated from the spec, for the refinement claim C4: the contribution
of a single exon feature — nothing when its attribute string lacks a
`gene_id` token or its chromosome is absent from the track set, and
otherwise its gene identifier with the window length (exon bases
examined) and the count of window scores strictly above `0.9`
(mappable bases). -/
def specExonContrib (data : TrackSet) (f : Feature) : Option (String × Nat × Nat) :=
  if containsSub geneIdChars f.attributes.data then
    match extract_gene_id f.attributes, List.lookup f.seq_id data with
    | some gid, some scores =>
      some (gid, (specWindow scores f.start f.stop).length,
        (specWindow scores f.start f.stop).countP (fun q => decide (mapThreshold < q)))
    | _, _ => none
  else none

/-- Stated from the spec, for the refinement claim C4: the per-exon
`(gene_id, exon bases examined, mappable bases)` contributions in
feature order. -/
def specGeneContribs (data : TrackSet) (gtf : List Feature) : List (String × Nat × Nat) :=
  (gtf.filter (fun f => f.type == "exon")).filterMap (specExonContrib data)

/-- Row lookup by gene identifier in a per-k gene table (the pandas
index alignment of `set_index('gene_id')`). -/
def lookupGene (g : String) (tbl : List GeneRecord) : Option GeneRecord :=
  tbl.find? (fun r => r.gene_id == g)

/-- The value the pandas index alignment
`gene_mappability[kmer].set_index('gene_id')['mappability_ratio']`
assigns to gene `g` for label `k`: the gene's ratio when the gene is in
`k`'s table, NaN (`none`) otherwise. -/
def kColumn (gm : List (String × List GeneRecord)) (g k : String) : Option ℚ :=
  (lookupGene g ((List.lookup k gm).getD [])).bind GeneRecord.mappability_ratio

/-- See `merged_data` below: one `merged_data[f'mappability_ratio_{kmer}'] = ...`
assignment, appending the aligned column for label `k` to every row. -/
def addColumn (gm : List (String × List GeneRecord))
    (rows : List (String × List (String × Option ℚ))) (k : String) :
    List (String × List (String × Option ℚ)) :=
  rows.map (fun row => (row.1, row.2 ++ [(k, kColumn gm row.1 k)]))

/-- The merge step of `plot_gene_mappability_changes`
(`src/visualise.py`, lines 65-72): start from the table of the smallest
sorted label, then attach, for each later label `k`, a
`mappability_ratio_{k}` column by gene-id alignment — a gene absent
from `k`'s table gets NaN (`none`).  Rows are `(gene_id, column list)`
where each column is `(label, ratio)`; the base table's
`total/mappable` columns play no role in the merge and are omitted.
`sorted(keys)[0]` on an empty dict raises an IndexError, hence the
error on an empty input. -/
def merged_data (gm : List (String × List GeneRecord)) :
    Except Unit (List (String × List (String × Option ℚ))) :=
  match sortStrings (gm.map Prod.fst) with
  | [] => .error ()
  | k0 :: rest =>
    .ok (rest.foldl (addColumn gm)
      (((List.lookup k0 gm).getD []).map
        (fun r => (r.gene_id, [(k0, r.mappability_ratio)]))))

/-- A concrete pair of per-k gene tables: label `"21"` with genes
`g1, g2`, label `"31"` with gene `g1` only (example input for
`merged_data`). -/
def exampleTables : List (String × List GeneRecord) :=
  [("31", [⟨"g1", 10, 5, some (1 / 2)⟩]),
    ("21", [⟨"g1", 10, 6, some (3 / 5)⟩, ⟨"g2", 4, 2, some (1 / 2)⟩])]

/-! ## General helper lemmas -/

lemma mapE_ok_map (f : α → Except Unit β) (g : α → β) :
    ∀ l : List α, (∀ a ∈ l, f a = .ok (g a)) → mapE f l = .ok (l.map g)
  | [], _ => rfl
  | a :: l, h => by
    have ha := h a (List.mem_cons_self a l)
    have hl := mapE_ok_map f g l (fun x hx => h x (List.mem_cons_of_mem a hx))
    simp only [mapE, ha, hl, List.map_cons]

lemma mapE_error_of_mem (f : α → Except Unit β) :
    ∀ (l : List α) (a : α), a ∈ l → f a = .error () → mapE f l = .error ()
  | b :: l, a, h, he => by
    rcases List.mem_cons.mp h with rfl | hmem
    · simp only [mapE, he]
    · have hl := mapE_error_of_mem f l a hmem he
      simp only [mapE, hl]
      cases hfb : f b <;> rfl

lemma lookup_mem {β : Type} :
    ∀ {l : List (String × β)} {c : String} {b : β}, List.lookup c l = some b → (c, b) ∈ l := by
  intro l
  induction l with
  | nil => intro c b h; simp [List.lookup] at h
  | cons p l ih =>
    intro c b h
    rw [show p = (p.1, p.2) from rfl, List.lookup_cons] at h
    cases hb : c == p.1 with
    | true =>
      rw [hb] at h
      cases h
      exact (eq_of_beq hb) ▸ List.mem_cons_self _ _
    | false =>
      rw [hb] at h
      exact List.mem_cons_of_mem _ (ih h)

lemma lookup_map_keyed {β γ : Type} (g : String → β → γ) :
    ∀ (l : List (String × β)) (c : String),
      List.lookup c (l.map (fun p => (p.1, g p.1 p.2))) = (List.lookup c l).map (g c)
  | [], c => rfl
  | p :: l, c => by
    rw [List.map_cons, List.lookup_cons,
      show p = (p.1, p.2) from rfl, List.lookup_cons]
    cases hb : c == p.1 with
    | true => rw [eq_of_beq hb]; rfl
    | false => simp only [lookup_map_keyed g l c]

lemma getD_zipWith (f : ℚ → ℚ → ℚ) :
    ∀ (l1 l2 : List ℚ) (i : Nat), i < l1.length → i < l2.length →
      (List.zipWith f l1 l2).getD i 0 = f (l1.getD i 0) (l2.getD i 0)
  | a :: l1, b :: l2, 0, _, _ => rfl
  | a :: l1, b :: l2, i + 1, h1, h2 => by
    simp only [List.zipWith_cons_cons, List.getD_cons_succ]
    exact getD_zipWith f l1 l2 i (Nat.lt_of_succ_lt_succ h1) (Nat.lt_of_succ_lt_succ h2)

lemma npSubtract_ok_of_length {x y : List ℚ} (h : x.length = y.length) :
    npSubtract x y = .ok (List.zipWith (fun u v => u - v) x y) := by
  unfold npSubtract
  rw [if_pos h]

lemma npSubtract_error {x y : List ℚ}
    (h : x.length ≠ y.length) (hx : x.length ≠ 1) (hy : y.length ≠ 1) :
    npSubtract x y = .error () := by
  unfold npSubtract
  rw [if_neg h]
  match x, y with
  | [], [] => exact absurd rfl h
  | [u], _ => exact absurd rfl hx
  | [], v :: vs =>
    match vs with
    | [] => exact absurd rfl hy
    | _ :: _ => rfl
  | u1 :: u2 :: us, [] => rfl
  | u1 :: u2 :: us, [v] => exact absurd rfl hy
  | u1 :: u2 :: us, v1 :: v2 :: vs => rfl

lemma compareChrom_none {data2 : TrackSet} {p : String × List ℚ}
    (h : List.lookup p.1 data2 = none) : compareChrom data2 p = .error () := by
  unfold compareChrom
  rw [h]

lemma compareChrom_some {data2 : TrackSet} {p : String × List ℚ} {b : List ℚ}
    (h : List.lookup p.1 data2 = some b) :
    compareChrom data2 p =
      match npSubtract b p.2 with
      | .error e => .error e
      | .ok d => .ok (p.1, d) := by
  unfold compareChrom
  rw [h]

/-! ## Claim C1: elementwise difference (second minus first) -/

/-- C1: for two per-chromosome track sets that share the same chromosome
keys and whose sequences for each shared chromosome have equal length,
`compare_mappability (data1, data2)` returns a mapping with the same
chromosome keys in which, for every chromosome `c` and position `i`, the
output value is `data2[c][i] - data1[c][i]` (second minus first). -/
theorem c1_compare_elementwise (data1 data2 : TrackSet)
    (h1 : ∀ p ∈ data1, (List.lookup p.1 data2).isSome = true ∧
      ((List.lookup p.1 data2).getD []).length = p.2.length)
    (_h2 : ∀ p ∈ data2, (List.lookup p.1 data1).isSome = true) :
    ∃ out, compare_mappability data1 data2 = .ok out ∧
      out.map Prod.fst = data1.map Prod.fst ∧
      ∀ c a b, List.lookup c data1 = some a → List.lookup c data2 = some b →
        ∃ d, List.lookup c out = some d ∧ d.length = a.length ∧
          ∀ i, i < a.length → d.getD i 0 = b.getD i 0 - a.getD i 0 := by
  set gv : String → List ℚ → List ℚ :=
    fun k v => List.zipWith (fun x y => x - y) ((List.lookup k data2).getD []) v with hgv
  refine ⟨data1.map (fun p => (p.1, gv p.1 p.2)), ?_, ?_, ?_⟩
  · unfold compare_mappability
    apply mapE_ok_map
    intro p hp
    obtain ⟨hsome, hlen⟩ := h1 p hp
    obtain ⟨b, hb⟩ : ∃ b, List.lookup p.1 data2 = some b := Option.isSome_iff_exists.mp hsome
    rw [hb] at hlen
    rw [compareChrom_some hb, npSubtract_ok_of_length (by simpa using hlen), hgv]
    simp only [hb, Option.getD_some]
  · rw [List.map_map]
    exact List.map_congr_left (fun p _ => rfl)
  · intro c a b ha hb
    have hmem : (c, a) ∈ data1 := lookup_mem ha
    have hlen : b.length = a.length := by
      have := (h1 (c, a) hmem).2
      rwa [hb, Option.getD_some] at this
    refine ⟨gv c a, ?_, ?_, ?_⟩
    · rw [lookup_map_keyed gv data1 c, ha, Option.map_some']
    · rw [hgv]
      simp only [hb, Option.getD_some, List.length_zipWith, hlen, Nat.min_self]
    · intro i hi
      rw [hgv]
      simp only [hb, Option.getD_some]
      exact getD_zipWith _ b a i (by omega) hi

/-- C1 witness: the theorem applied to the concrete track sets
`{"chr1": [5, 1]}` and `{"chr1": [1, 2]}`. -/
theorem c1_witness :
    ∃ out, compare_mappability [("chr1", [5, 1])] [("chr1", [1, 2])] = .ok out ∧
      out.map Prod.fst = [("chr1", [(5 : ℚ), 1])].map Prod.fst ∧
      ∀ c a b, List.lookup c [("chr1", [(5 : ℚ), 1])] = some a →
        List.lookup c [("chr1", [(1 : ℚ), 2])] = some b →
        ∃ d, List.lookup c out = some d ∧ d.length = a.length ∧
          ∀ i, i < a.length → d.getD i 0 = b.getD i 0 - a.getD i 0 :=
  c1_compare_elementwise [("chr1", [5, 1])] [("chr1", [1, 2])]
    (by decide) (by decide)

/-! ## Claim C2: behaviour on mismatched inputs -/

/-- C2 counterexample: the claim asserts that a chromosome present in
one input but absent from the other makes `compare_mappability` fail
and is never silently dropped; but with `data1 = {}` and
`data2 = {"chr1": [1]}` the chromosome `"chr1"` is present only in the
second input, and the function returns successfully with `"chr1"`
silently dropped from the result. -/
theorem c2_counterexample :
    compare_mappability [] [("chr1", [1])] = .ok [] ∧
      compare_mappability [] [("chr1", [1])] ≠ .error () :=
  ⟨rfl, fun h => Except.noConfusion h⟩

/-- C2 amended: the differ raises only for chromosomes of the *first*
set: if a chromosome of `data1` is missing from `data2`, or a shared
chromosome's two sequences have different lengths with neither length
equal to one (NumPy broadcasts a length-one array instead of failing),
the comparison raises.  A chromosome present only in `data2` is
silently dropped (see the counterexample). -/
theorem c2_amended_compare_errors :
    (∀ (data1 data2 : TrackSet) (c : String) (a : List ℚ), (c, a) ∈ data1 →
      List.lookup c data2 = none → compare_mappability data1 data2 = .error ()) ∧
    (∀ (data1 data2 : TrackSet) (c : String) (a b : List ℚ), (c, a) ∈ data1 →
      List.lookup c data2 = some b → a.length ≠ b.length → a.length ≠ 1 →
      b.length ≠ 1 → compare_mappability data1 data2 = .error ()) := by
  constructor
  · intro data1 data2 c a hmem hlook
    unfold compare_mappability
    exact mapE_error_of_mem _ data1 (c, a) hmem (compareChrom_none hlook)
  · intro data1 data2 c a b hmem hlook hne hna hnb
    unfold compare_mappability
    apply mapE_error_of_mem _ data1 (c, a) hmem
    rw [compareChrom_some hlook,
      show npSubtract b ((c, a) : String × List ℚ).2 = Except.error () from
        npSubtract_error (fun h => hne h.symm) hnb hna]

/-- C2 witness for the amended statement: a chromosome of the first set
missing from the second raises, and a 3-versus-2 length mismatch
raises. -/
theorem c2_witness :
    compare_mappability [("chr1", [1])] [] = .error () ∧
      compare_mappability [("chr1", [1, 2, 3])] [("chr1", [9, 9])] = .error () :=
  ⟨c2_amended_compare_errors.1 [("chr1", [1])] [] "chr1" [1] (by decide) (by decide),
    c2_amended_compare_errors.2 [("chr1", [1, 2, 3])] [("chr1", [9, 9])] "chr1"
      [1, 2, 3] [9, 9] (by decide) (by decide) (by decide) (by decide) (by decide)⟩

/-! ## Gene-aggregation helper lemmas -/

lemma processExon_no_gene {data : TrackSet} {f : Feature}
    (h : containsSub geneIdChars f.attributes.data = false) :
    processExon data f = .ok none := by
  unfold processExon
  rw [h]
  rfl

lemma processExon_crash {data : TrackSet} {f : Feature}
    (hc : containsSub geneIdChars f.attributes.data = true)
    (he : extract_gene_id f.attributes = none) :
    processExon data f = .error () := by
  unfold processExon
  rw [hc, he]
  rfl

lemma processExon_missing_chrom {data : TrackSet} {f : Feature} {gid : String}
    (hc : containsSub geneIdChars f.attributes.data = true)
    (he : extract_gene_id f.attributes = some gid)
    (hm : List.lookup f.seq_id data = none) :
    processExon data f = .ok none := by
  unfold processExon
  rw [hc, he, hm]
  rfl

lemma processExon_record {data : TrackSet} {f : Feature} {gid : String} {scores : List ℚ}
    (hc : containsSub geneIdChars f.attributes.data = true)
    (he : extract_gene_id f.attributes = some gid)
    (hs : List.lookup f.seq_id data = some scores) :
    processExon data f = .ok (some (gid, (pySlice scores (f.start - 1) f.stop).length,
      (pySlice scores (f.start - 1) f.stop).countP (fun q => decide (mapThreshold < q)))) := by
  unfold processExon
  rw [hc, he, hs]
  rfl

lemma extract_gene_id_eq {attrs : String} {seg tok : List Char}
    (hseg : (splitCh ';' attrs.data).find? (fun s => containsSub geneIdChars s) = some seg)
    (htok : (splitCh ' ' seg)[1]? = some tok) :
    extract_gene_id attrs = some (String.mk tok) := by
  unfold extract_gene_id
  rw [hseg, Option.some_bind, htok]
  rfl

lemma calc_of_mapE_ok {data : TrackSet} {gtf : List Feature}
    {opts : List (Option (String × Nat × Nat))}
    (h : mapE (processExon data) (gtf.filter (fun f => f.type == "exon")) = .ok opts)
    (hne : opts.filterMap id ≠ []) :
    calculate_gene_mappability data gtf = .ok (aggregateRecords (opts.filterMap id)) := by
  unfold calculate_gene_mappability
  rw [h]
  show (if (opts.filterMap id).isEmpty = true then Except.error ()
      else Except.ok (aggregateRecords (opts.filterMap id))) =
    Except.ok (aggregateRecords (opts.filterMap id))
  rw [if_neg (by simpa [List.isEmpty_iff] using hne)]

lemma aggregate_mem {recs : List (String × Nat × Nat)} {g : String}
    (hg : g ∈ recs.map (fun p => p.1)) :
    (⟨g, sumTotals recs g, sumMappables recs g,
      geneRatio (sumTotals recs g) (sumMappables recs g)⟩ : GeneRecord) ∈
      aggregateRecords recs := by
  unfold aggregateRecords
  refine List.mem_map.mpr ⟨g, ?_, rfl⟩
  unfold sortStrings
  exact ((List.perm_insertionSort strLe _).mem_iff).mpr (List.mem_dedup.mpr hg)

lemma aggregateRecords_singleton (g : String) (t m : Nat) :
    aggregateRecords [(g, t, m)] = [⟨g, t, m, geneRatio t m⟩] := by
  unfold aggregateRecords sumTotals sumMappables sortStrings
  simp [List.insertionSort, List.dedup]

lemma calc_singleton {data : TrackSet} {f : Feature} {gid : String} {t m : Nat}
    (ht : f.type = "exon")
    (hp : processExon data f = .ok (some (gid, t, m))) :
    calculate_gene_mappability data [f] = .ok [⟨gid, t, m, geneRatio t m⟩] := by
  have hfilter : ([f].filter (fun f => f.type == "exon")) = [f] := by
    simp [List.filter_cons, ht]
  have hmap : mapE (processExon data) [f] = .ok [some (gid, t, m)] := by
    simp only [mapE, hp]
  unfold calculate_gene_mappability
  rw [hfilter, hmap]
  show (if (List.filterMap id [some (gid, t, m)]).isEmpty = true then Except.error ()
      else Except.ok (aggregateRecords (List.filterMap id [some (gid, t, m)]))) =
    Except.ok [⟨gid, t, m, geneRatio t m⟩]
  rw [show List.filterMap id [some (gid, t, m)] = [(gid, t, m)] from rfl]
  rw [if_neg (by simp), aggregateRecords_singleton]

lemma mapE_skip {ρ : Type} (g : α → Except Unit (Option ρ)) (x : α)
    (hx : g x = .ok none) :
    ∀ A B : List α,
      Except.map (List.filterMap id) (mapE g (A ++ x :: B)) =
        Except.map (List.filterMap id) (mapE g (A ++ B))
  | [], B => by
    simp only [List.nil_append]
    simp only [mapE, hx]
    cases hB : mapE g B with
    | error e => rfl
    | ok bs => simp [Except.map]
  | a :: A, B => by
    simp only [List.cons_append, mapE]
    cases ha : g a with
    | error e => rfl
    | ok b =>
      have ih := mapE_skip g x hx A B
      cases h1 : mapE g (A ++ x :: B) with
      | error e1 =>
        cases h2 : mapE g (A ++ B) with
        | error e2 => rfl
        | ok l2 => rw [h1, h2] at ih; simp [Except.map] at ih
      | ok l1 =>
        cases h2 : mapE g (A ++ B) with
        | error e2 => rw [h1, h2] at ih; simp [Except.map] at ih
        | ok l2 =>
          rw [h1, h2] at ih
          simp only [Except.map] at ih ⊢
          injection ih with ih
          cases b with
          | none => simp [ih]
          | some v => simp [ih]

lemma calc_skip {data : TrackSet} {x : Feature} (pre post : List Feature)
    (hx : x.type = "exon" → processExon data x = .ok none) :
    calculate_gene_mappability data (pre ++ x :: post) =
      calculate_gene_mappability data (pre ++ post) := by
  unfold calculate_gene_mappability
  rw [List.filter_append, List.filter_append, List.filter_cons]
  by_cases ht : (x.type == "exon") = true
  · rw [if_pos ht]
    have hskip := mapE_skip (processExon data) x (hx (by simpa [beq_iff_eq] using ht))
      (pre.filter (fun f => f.type == "exon")) (post.filter (fun f => f.type == "exon"))
    cases h1 : mapE (processExon data)
        (pre.filter (fun f => f.type == "exon") ++ x ::
          post.filter (fun f => f.type == "exon")) with
    | error e1 =>
      cases h2 : mapE (processExon data)
          (pre.filter (fun f => f.type == "exon") ++
            post.filter (fun f => f.type == "exon")) with
      | error e2 => rfl
      | ok l2 => rw [h1, h2] at hskip; simp [Except.map] at hskip
    | ok l1 =>
      cases h2 : mapE (processExon data)
          (pre.filter (fun f => f.type == "exon") ++
            post.filter (fun f => f.type == "exon")) with
      | error e2 => rw [h1, h2] at hskip; simp [Except.map] at hskip
      | ok l2 =>
        rw [h1, h2] at hskip
        simp only [Except.map] at hskip
        injection hskip with hskip
        show (if (l1.filterMap id).isEmpty = true then Except.error ()
            else Except.ok (aggregateRecords (l1.filterMap id))) =
          (if (l2.filterMap id).isEmpty = true then Except.error ()
            else Except.ok (aggregateRecords (l2.filterMap id)))
        rw [hskip]
  · rw [if_neg ht]

lemma calc_ok_inv {data : TrackSet} {gtf : List Feature} {table : List GeneRecord}
    (h : calculate_gene_mappability data gtf = .ok table) :
    ∃ opts, mapE (processExon data) (gtf.filter (fun f => f.type == "exon")) = .ok opts ∧
      opts.filterMap id ≠ [] ∧ table = aggregateRecords (opts.filterMap id) := by
  unfold calculate_gene_mappability at h
  cases he : mapE (processExon data) (gtf.filter (fun f => f.type == "exon")) with
  | error e =>
    rw [he] at h
    exact Except.noConfusion h
  | ok opts =>
    rw [he] at h
    revert h
    show (if (opts.filterMap id).isEmpty = true then Except.error ()
        else Except.ok (aggregateRecords (opts.filterMap id))) = .ok table → _
    intro h
    by_cases hemp : (opts.filterMap id).isEmpty = true
    · rw [if_pos hemp] at h
      exact Except.noConfusion h
    · rw [if_neg hemp] at h
      injection h with h
      exact ⟨opts, rfl, by simpa [List.isEmpty_iff] using hemp, h.symm⟩

/-! ## Claim C5: gene-identifier extraction -/

/-- C5: for an exon feature whose attribute string contains a `gene_id`
token, the gene identifier under which the aggregation records the
feature is exactly the second space-split token of the first
`;`-separated segment of the attribute string containing `gene_id`
(the value following the `gene_id` key in the semicolon-delimited
attribute string). -/
theorem c5_gene_id_extraction (data : TrackSet) (f : Feature) (seg tok : List Char)
    (scores : List ℚ)
    (ht : f.type = "exon")
    (hc : containsSub geneIdChars f.attributes.data = true)
    (hseg : (splitCh ';' f.attributes.data).find? (fun s => containsSub geneIdChars s)
      = some seg)
    (htok : (splitCh ' ' seg)[1]? = some tok)
    (hchrom : List.lookup f.seq_id data = some scores) :
    ∃ t m, calculate_gene_mappability data [f] =
      .ok [⟨String.mk tok, t, m, geneRatio t m⟩] :=
  ⟨_, _, calc_singleton ht (processExon_record hc (extract_gene_id_eq hseg htok) hchrom)⟩

/-- C5 witness: on the attribute string `gene_id "G1"; transcript_id "T1"`
the recorded gene identifier is `"G1"` (with its quotes), the second
space-split token of the first matching `;`-segment. -/
theorem c5_witness :
    ∃ t m, calculate_gene_mappability [("chr1", [1, 0])]
        [⟨"exon", "chr1", 1, 2, "gene_id \"G1\"; transcript_id \"T1\""⟩] =
      .ok [⟨"\"G1\"", t, m, geneRatio t m⟩] :=
  c5_gene_id_extraction [("chr1", [1, 0])]
    ⟨"exon", "chr1", 1, 2, "gene_id \"G1\"; transcript_id \"T1\""⟩
    (("gene_id \"G1\"" : String).data) (("\"G1\"" : String).data) [1, 0]
    rfl (by decide) (by decide) (by decide) (by decide)

/-! ## Claim C6: zero-total genes get an undefined ratio -/

/-- C6: a gene whose accumulated `total_exon_bases` is `0` gets an
undefined ratio (`NaN`, modelled `none`) — never a fabricated number
such as zero; and the ratio computation itself never raises: whenever
the per-exon pass succeeds with at least one record the aggregation
returns normally. -/
theorem c6_zero_total_ratio_undefined :
    (∀ (data : TrackSet) (gtf : List Feature) (table : List GeneRecord) (r : GeneRecord),
      calculate_gene_mappability data gtf = .ok table → r ∈ table →
      r.total_exon_bases = 0 → r.mappability_ratio = none) ∧
    (∀ (data : TrackSet) (gtf : List Feature) (opts : List (Option (String × Nat × Nat))),
      mapE (processExon data) (gtf.filter (fun f => f.type == "exon")) = .ok opts →
      opts.filterMap id ≠ [] →
      calculate_gene_mappability data gtf = .ok (aggregateRecords (opts.filterMap id))) := by
  constructor
  · intro data gtf table r hok hr htot
    obtain ⟨opts, _, _, htab⟩ := calc_ok_inv hok
    subst htab
    unfold aggregateRecords at hr
    obtain ⟨g, _, hgr⟩ := List.mem_map.mp hr
    subst hgr
    have htot' : sumTotals (opts.filterMap id) g = 0 := htot
    show geneRatio (sumTotals (opts.filterMap id) g) (sumMappables (opts.filterMap id) g)
      = none
    unfold geneRatio
    rw [if_pos htot']
  · intro data gtf opts he hne
    exact calc_of_mapE_ok he hne

/-- C6 witness: an exon whose window lies entirely past the end of its
chromosome contributes a `(0, 0)` record, and the resulting gene row has
ratio `none` (NaN), not `0`. -/
theorem c6_witness :
    calculate_gene_mappability [("chr1", [1 / 2])]
        [⟨"exon", "chr1", 5, 7, "gene_id \"G\""⟩] = .ok [⟨"\"G\"", 0, 0, none⟩] ∧
      (⟨"\"G\"", 0, 0, none⟩ : GeneRecord).mappability_ratio = none :=
  ⟨rfl,
    c6_zero_total_ratio_undefined.1 [("chr1", [1 / 2])]
      [⟨"exon", "chr1", 5, 7, "gene_id \"G\""⟩] [⟨"\"G\"", 0, 0, none⟩]
      ⟨"\"G\"", 0, 0, none⟩ rfl (by decide) rfl⟩

/-! ## Claim C7: features without a gene_id token are skipped -/

/-- C7 counterexample: the claim asserts a `gene_id`-less exon feature
never causes an error; but when no feature at all contributes a record,
`pd.DataFrame([]).groupby(['gene_id'])` raises a KeyError, so a run
whose only exon lacks `gene_id` raises instead of returning an empty
table. -/
theorem c7_counterexample :
    calculate_gene_mappability [] [⟨"exon", "chr1", 1, 10, "no_tag_here"⟩] =
      .error () := rfl

/-- C7 amended: an exon feature whose attribute string contains no
`gene_id` token is skipped and contributes nothing to any gene's totals
— the aggregation result is identical with and without the feature, so
no error arises from the feature itself.  The claim's unconditional "it
raises no error" fails only in the run-level edge case of the
counterexample: when no feature at all contributes a record, the final
pandas `groupby` raises (with or without the skipped feature). -/
theorem c7_amended_skip_no_gene_id (data : TrackSet) (pre post : List Feature) (f : Feature)
    (hna : containsSub geneIdChars f.attributes.data = false) :
    calculate_gene_mappability data (pre ++ f :: post) =
      calculate_gene_mappability data (pre ++ post) :=
  calc_skip pre post (fun _ => processExon_no_gene hna)

/-- C7 witness: dropping a `gene_id`-less exon from a run leaves the
output unchanged. -/
theorem c7_witness :
    calculate_gene_mappability [("chr1", [1, 1])]
        [⟨"exon", "chr1", 1, 2, "gene_id \"A\""⟩, ⟨"exon", "chr1", 1, 2, "no_tag"⟩] =
      calculate_gene_mappability [("chr1", [1, 1])]
        [⟨"exon", "chr1", 1, 2, "gene_id \"A\""⟩] :=
  c7_amended_skip_no_gene_id [("chr1", [1, 1])] [⟨"exon", "chr1", 1, 2, "gene_id \"A\""⟩]
    [] ⟨"exon", "chr1", 1, 2, "no_tag"⟩ (by decide)

/-! ## Claim C8: features on chromosomes missing from the track set -/

/-- C8 counterexample: the claim asserts that an exon whose chromosome
is absent from the track set raises no error; but when every feature is
skipped the final pandas `groupby` on the empty record list raises, so a
run whose only exon references an absent chromosome fails. -/
theorem c8_counterexample :
    calculate_gene_mappability [] [⟨"exon", "chr1", 1, 3, "gene_id \"G\""⟩] =
      .error () := rfl

/-- C8 amended: an exon feature whose chromosome is absent from the
track set contributes nothing to any gene's totals — the aggregation
result is identical with and without the feature (no partial window is
taken) — provided its attribute string does not make the
gene-identifier extraction itself raise (extraction runs before the
chromosome check).  As for C7, the unconditional "raises no error"
claim fails when no feature at all contributes a record (see the
counterexample). -/
theorem c8_amended_skip_missing_chrom (data : TrackSet) (pre post : List Feature)
    (f : Feature)
    (hchrom : List.lookup f.seq_id data = none)
    (hok : containsSub geneIdChars f.attributes.data = true →
      (extract_gene_id f.attributes).isSome = true) :
    calculate_gene_mappability data (pre ++ f :: post) =
      calculate_gene_mappability data (pre ++ post) := by
  apply calc_skip
  intro _
  by_cases hc : containsSub geneIdChars f.attributes.data = true
  · obtain ⟨gid, hgid⟩ := Option.isSome_iff_exists.mp (hok hc)
    exact processExon_missing_chrom hc hgid hchrom
  · exact processExon_no_gene (by simpa using hc)

/-- C8 witness: dropping an exon that references a chromosome absent
from the track set leaves the output unchanged. -/
theorem c8_witness :
    calculate_gene_mappability [("chr2", [1, 0])]
        [⟨"exon", "chr2", 1, 2, "gene_id \"B\""⟩, ⟨"exon", "chr1", 1, 2, "gene_id \"C\""⟩] =
      calculate_gene_mappability [("chr2", [1, 0])]
        [⟨"exon", "chr2", 1, 2, "gene_id \"B\""⟩] :=
  c8_amended_skip_missing_chrom [("chr2", [1, 0])] [⟨"exon", "chr2", 1, 2, "gene_id \"B\""⟩]
    [] ⟨"exon", "chr1", 1, 2, "gene_id \"C\""⟩ (by decide) (by decide)

/-! ## Slice lemmas and claim C10: windows beyond the chromosome end -/

lemma drop_min {xs : List ℚ} {s : Nat} : xs.drop (min s xs.length) = xs.drop s := by
  rcases Nat.le_total s xs.length with h | h
  · rw [Nat.min_eq_left h]
  · rw [Nat.min_eq_right h, List.drop_length, List.drop_eq_nil_of_le h]

lemma pySlice_overflow {xs : List ℚ} {s e : Int} (hs : 0 ≤ s)
    (he : (xs.length : Int) ≤ e) :
    pySlice xs s e = xs.drop s.toNat := by
  unfold pySlice pyIdx
  rw [if_neg (by omega), if_neg (by omega)]
  rw [show min e.toNat xs.length = xs.length from by omega, drop_min]
  exact List.take_of_length_le (by rw [List.length_drop]; omega)

/-- C10: an exon whose chromosome is present but whose window
`[start-1, end)` extends beyond the end of the chromosome's score
sequence raises no error; only the in-range positions are counted: the
recorded total is the clamped window size
`len - min (start-1) len` — strictly smaller than the nominal window
size `end - start + 1`, and zero when `start-1` is at or past the
sequence end. -/
theorem c10_window_clamp (data : TrackSet) (f : Feature) (gid : String) (scores : List ℚ)
    (ht : f.type = "exon")
    (hc : containsSub geneIdChars f.attributes.data = true)
    (hex : extract_gene_id f.attributes = some gid)
    (hs : List.lookup f.seq_id data = some scores)
    (h1 : 1 ≤ f.start) (hle : f.start ≤ f.stop)
    (hover : (scores.length : Int) < f.stop) :
    calculate_gene_mappability data [f] =
      .ok [⟨gid, scores.length - min (f.start - 1).toNat scores.length,
        (scores.drop (f.start - 1).toNat).countP (fun q => decide (mapThreshold < q)),
        geneRatio (scores.length - min (f.start - 1).toNat scores.length)
          ((scores.drop (f.start - 1).toNat).countP (fun q => decide (mapThreshold < q)))⟩] ∧
      ((scores.length - min (f.start - 1).toNat scores.length : Int) < f.stop - f.start + 1) ∧
      (scores.length ≤ (f.start - 1).toNat →
        scores.length - min (f.start - 1).toNat scores.length = 0) := by
  have hslice : pySlice scores (f.start - 1) f.stop = scores.drop (f.start - 1).toNat :=
    pySlice_overflow (by omega) (by omega)
  refine ⟨?_, by omega, by omega⟩
  have hp := @processExon_record data f gid scores hc hex hs
  rw [hslice, List.length_drop,
    show scores.length - (f.start - 1).toNat
      = scores.length - min (f.start - 1).toNat scores.length from by omega] at hp
  exact calc_singleton ht hp

unseal Rat.add Rat.sub Rat.mul Rat.inv in
/-- C10 witness: chromosome of length 2, window `[1, 5)`: one in-range
position is counted, no error is raised. -/
theorem c10_witness :
    calculate_gene_mappability [("chr1", [1, 1])]
        [⟨"exon", "chr1", 2, 5, "gene_id \"X\""⟩] = .ok [⟨"\"X\"", 1, 1, some 1⟩] := by
  have h := c10_window_clamp [("chr1", [1, 1])] ⟨"exon", "chr1", 2, 5, "gene_id \"X\""⟩
    "\"X\"" [1, 1] rfl (by decide) (by decide) (by decide) (by decide) (by decide) (by decide)
  exact h.1.trans rfl

/-! ## Claim C4: per-gene aggregation refines the spec description -/

lemma pySlice_eq_specWindow (scores : List ℚ) (start stop : Int)
    (h1 : 1 ≤ start) (h2 : 0 ≤ stop) :
    pySlice scores (start - 1) stop = specWindow scores start stop := by
  unfold pySlice specWindow pyIdx
  rw [if_neg (by omega), if_neg (by omega), drop_min]
  apply List.take_eq_take.mpr
  rw [List.length_drop]
  omega

lemma specExonContrib_record {data : TrackSet} {f : Feature} {gid : String}
    {scores : List ℚ}
    (hc : containsSub geneIdChars f.attributes.data = true)
    (he : extract_gene_id f.attributes = some gid)
    (hs : List.lookup f.seq_id data = some scores) :
    specExonContrib data f = some (gid, (specWindow scores f.start f.stop).length,
      (specWindow scores f.start f.stop).countP (fun q => decide (mapThreshold < q))) := by
  unfold specExonContrib
  rw [hc, he, hs]
  rfl

lemma specExonContrib_missing_chrom {data : TrackSet} {f : Feature} {gid : String}
    (hc : containsSub geneIdChars f.attributes.data = true)
    (he : extract_gene_id f.attributes = some gid)
    (hm : List.lookup f.seq_id data = none) :
    specExonContrib data f = none := by
  unfold specExonContrib
  rw [hc, he, hm]
  rfl

lemma specExonContrib_no_gene {data : TrackSet} {f : Feature}
    (h : containsSub geneIdChars f.attributes.data = false) :
    specExonContrib data f = none := by
  unfold specExonContrib
  rw [h]
  rfl

lemma processExon_eq_spec {data : TrackSet} {f : Feature}
    (hcrash : containsSub geneIdChars f.attributes.data = true →
      (extract_gene_id f.attributes).isSome = true)
    (h1 : 1 ≤ f.start) (h2 : 0 ≤ f.stop) :
    processExon data f = .ok (specExonContrib data f) := by
  by_cases hc : containsSub geneIdChars f.attributes.data = true
  · obtain ⟨gid, hgid⟩ := Option.isSome_iff_exists.mp (hcrash hc)
    cases hlk : List.lookup f.seq_id data with
    | none => rw [processExon_missing_chrom hc hgid hlk, specExonContrib_missing_chrom hc hgid hlk]
    | some scores =>
      rw [processExon_record hc hgid hlk, specExonContrib_record hc hgid hlk,
        pySlice_eq_specWindow scores f.start f.stop h1 h2]
  · rw [processExon_no_gene (by simpa using hc), specExonContrib_no_gene (by simpa using hc)]

lemma calc_eq_spec {data : TrackSet} {gtf : List Feature}
    (hwf : ∀ f ∈ gtf, f.type = "exon" →
      (containsSub geneIdChars f.attributes.data = true →
        (extract_gene_id f.attributes).isSome = true) ∧ 1 ≤ f.start ∧ 0 ≤ f.stop)
    (hne : specGeneContribs data gtf ≠ []) :
    calculate_gene_mappability data gtf =
      .ok (aggregateRecords (specGeneContribs data gtf)) := by
  have hmap : mapE (processExon data) (gtf.filter (fun f => f.type == "exon"))
      = .ok ((gtf.filter (fun f => f.type == "exon")).map (specExonContrib data)) := by
    apply mapE_ok_map
    intro f hf
    have hmemf := List.mem_filter.mp hf
    have htype : f.type = "exon" := by simpa [beq_iff_eq] using hmemf.2
    obtain ⟨ha, hb, hc⟩ := hwf f hmemf.1 htype
    exact processExon_eq_spec ha hb hc
  have hrecs : ((gtf.filter (fun f => f.type == "exon")).map
      (specExonContrib data)).filterMap id = specGeneContribs data gtf := by
    rw [List.filterMap_map]
    rfl
  have h := calc_of_mapE_ok hmap (by rw [hrecs]; exact hne)
  rwa [hrecs] at h

/-- C4: for every track set and exon feature collection (with 1-based
in-range coordinates and well-formed `gene_id` attributes), the
aggregation converts each exon's 1-based inclusive `[start, end]` to the
0-based half-open window `[start-1, end)` (`specWindow`), records the
window length as exon bases and the count of scores strictly above `0.9`
as mappable bases (`specExonContrib`), sums both counts across all exons
sharing a `gene_id` (`sumTotals`/`sumMappables`), and derives
`mappability_ratio = mappable / total` (`geneRatio`). -/
theorem c4_gene_aggregation (data : TrackSet) (gtf : List Feature)
    (hwf : ∀ f ∈ gtf, f.type = "exon" →
      (containsSub geneIdChars f.attributes.data = true →
        (extract_gene_id f.attributes).isSome = true) ∧ 1 ≤ f.start ∧ 0 ≤ f.stop)
    (hne : specGeneContribs data gtf ≠ []) :
    calculate_gene_mappability data gtf =
      .ok (aggregateRecords (specGeneContribs data gtf)) ∧
    ∀ g ∈ (specGeneContribs data gtf).map (fun p => p.1),
      (⟨g, sumTotals (specGeneContribs data gtf) g,
        sumMappables (specGeneContribs data gtf) g,
        geneRatio (sumTotals (specGeneContribs data gtf) g)
          (sumMappables (specGeneContribs data gtf) g)⟩ : GeneRecord) ∈
        aggregateRecords (specGeneContribs data gtf) :=
  ⟨calc_eq_spec hwf hne, fun _ hg => aggregate_mem hg⟩

unseal Rat.add Rat.sub Rat.mul Rat.inv in
/-- C4 witness: the spec's concrete instance — a gene with two exons of
lengths 10 and 20, with 5 and 15 mappable bases respectively, yields
`total_exon_bases = 30`, `mappable_bases = 20`, and
`mappability_ratio = 2/3`, which is within `1e-4` of `0.6667`. -/
theorem c4_witness :
    calculate_gene_mappability
        [("chr1", [1, 1, 1, 1, 1, 0, 0, 0, 0, 0,
          1, 1, 1, 1, 1, 1, 1, 1, 1, 1, 1, 1, 1, 1, 1, 0, 0, 0, 0, 0])]
        [⟨"exon", "chr1", 1, 10, "gene_id \"G\""⟩,
          ⟨"exon", "chr1", 11, 30, "gene_id \"G\""⟩] =
      .ok [⟨"\"G\"", 30, 20, some (2 / 3)⟩] ∧
      |(2 : ℚ) / 3 - 6667 / 10000| ≤ 1 / 10000 := by
  have h := c4_gene_aggregation
    [("chr1", [1, 1, 1, 1, 1, 0, 0, 0, 0, 0,
      1, 1, 1, 1, 1, 1, 1, 1, 1, 1, 1, 1, 1, 1, 1, 0, 0, 0, 0, 0])]
    [⟨"exon", "chr1", 1, 10, "gene_id \"G\""⟩,
      ⟨"exon", "chr1", 11, 30, "gene_id \"G\""⟩]
    (by decide) (by decide)
  refine ⟨h.1.trans rfl, ?_⟩
  rw [abs_le]
  constructor <;> norm_num

/-! ## Claim C9: cross-k merge by gene-id alignment -/

lemma foldl_addColumn (gm : List (String × List GeneRecord)) :
    ∀ (ks : List String) (rows : List (String × List (String × Option ℚ))),
      ks.foldl (addColumn gm) rows =
        rows.map (fun row => (row.1, row.2 ++ ks.map (fun k => (k, kColumn gm row.1 k))))
  | [], rows => by
    simp
  | k :: ks, rows => by
    rw [List.foldl_cons, foldl_addColumn gm ks (addColumn gm rows k)]
    unfold addColumn
    rw [List.map_map]
    apply List.map_congr_left
    intro row _
    simp [Function.comp, List.append_assoc]

/-- C9: when merging the per-k gene tables, every `gene_id` of the
smallest-labeled k's table yields one row carrying exactly one ratio
column per k-mer-size label (`k0 :: rest`, in sorted order); the value
for a later label `k` is the aligned lookup `kColumn` — in particular a
gene absent from `k`'s table gets `none` (NaN), never a fabricated
zero. -/
theorem c9_cross_k_merge (gm : List (String × List GeneRecord)) (k0 : String)
    (rest : List String)
    (hsort : sortStrings (gm.map Prod.fst) = k0 :: rest) :
    ∃ rows, merged_data gm = .ok rows ∧
      rows.map Prod.fst = ((List.lookup k0 gm).getD []).map GeneRecord.gene_id ∧
      ∀ row ∈ rows,
        (∃ r ∈ (List.lookup k0 gm).getD [], r.gene_id = row.1 ∧
          row.2 = (k0, r.mappability_ratio) ::
            rest.map (fun k => (k, kColumn gm row.1 k))) ∧
        row.2.map Prod.fst = k0 :: rest ∧
        ∀ k ∈ rest, lookupGene row.1 ((List.lookup k gm).getD []) = none →
          (k, none) ∈ row.2 := by
  unfold merged_data
  rw [hsort]
  refine ⟨_, rfl, ?_, ?_⟩
  · rw [foldl_addColumn, List.map_map, List.map_map]
    exact List.map_congr_left (fun r _ => rfl)
  · intro row hrow
    rw [foldl_addColumn, List.map_map] at hrow
    obtain ⟨r, hrmem, hreq⟩ := List.mem_map.mp hrow
    have hrow2 : row = (r.gene_id, (k0, r.mappability_ratio) ::
        rest.map (fun k => (k, kColumn gm r.gene_id k))) := by
      rw [← hreq]
      simp [Function.comp]
    subst hrow2
    refine ⟨⟨r, hrmem, rfl, rfl⟩, ?_, ?_⟩
    · rw [List.map_cons, List.map_map]
      exact congrArg (k0 :: ·)
        ((List.map_congr_left (fun k _ => rfl)).trans (List.map_id rest))
    · intro k hk hnone
      refine List.mem_cons_of_mem _ (List.mem_map.mpr ⟨k, hk, ?_⟩)
      unfold kColumn
      rw [hnone]
      rfl

/-- C9 witness: two labels `"21" < "31"`; gene `g2` is present in the
base (`"21"`) table but absent from `"31"`'s, so its `"31"` column is
`none`. -/
theorem c9_witness :
    ∃ rows, merged_data exampleTables = .ok rows ∧
      rows.map Prod.fst =
        ((List.lookup "21" exampleTables).getD []).map GeneRecord.gene_id ∧
      ∀ row ∈ rows,
        (∃ r ∈ (List.lookup "21" exampleTables).getD [],
          r.gene_id = row.1 ∧
          row.2 = ("21", r.mappability_ratio) ::
            ["31"].map (fun k => (k, kColumn exampleTables row.1 k))) ∧
        row.2.map Prod.fst = "21" :: ["31"] ∧
        ∀ k ∈ ["31"],
          lookupGene row.1 ((List.lookup k exampleTables).getD []) = none →
          (k, none) ∈ row.2 :=
  c9_cross_k_merge exampleTables "21" ["31"] (by decide)

/-! ## Claim C3 helpers: the string order used by `sorted` -/

lemma pyLeCh_total : ∀ a b : List Char, pyLeCh a b = true ∨ pyLeCh b a = true
  | [], _ => Or.inl rfl
  | _ :: _, [] => Or.inr rfl
  | a :: as, b :: bs => by
    rcases lt_trichotomy a b with h | h | h
    · left
      simp [pyLeCh, h]
    · subst h
      rcases pyLeCh_total as bs with ih | ih
      · left
        simp [pyLeCh, lt_irrefl a, ih]
      · right
        simp [pyLeCh, lt_irrefl a, ih]
    · right
      simp [pyLeCh, h]

lemma pyLeCh_trans : ∀ a b c : List Char,
    pyLeCh a b = true → pyLeCh b c = true → pyLeCh a c = true
  | [], _, _, _, _ => rfl
  | _ :: _, [], _, h1, _ => by simp [pyLeCh] at h1
  | _ :: _, _ :: _, [], _, h2 => by simp [pyLeCh] at h2
  | a :: as, b :: bs, c :: cs, h1, h2 => by
    by_cases hab : a < b
    · by_cases hbc : b < c
      · simp [pyLeCh, lt_trans hab hbc]
      · by_cases hcb : c < b
        · simp [pyLeCh, hbc, hcb] at h2
        · have hbeq : b = c := le_antisymm (not_lt.mp hcb) (not_lt.mp hbc)
          subst hbeq
          simp [pyLeCh, hab]
    · by_cases hba : b < a
      · simp [pyLeCh, hab, hba] at h1
      · have haeq : a = b := le_antisymm (not_lt.mp hba) (not_lt.mp hab)
        subst haeq
        by_cases hac : a < c
        · simp [pyLeCh, hac]
        · by_cases hca : c < a
          · simp [pyLeCh, hac, hca] at h2
          · have haeq2 : a = c := le_antisymm (not_lt.mp hca) (not_lt.mp hac)
            subst haeq2
            simp only [pyLeCh, lt_irrefl a, if_false] at h1 h2 ⊢
            exact pyLeCh_trans as bs cs h1 h2

lemma sortStrings_sorted (l : List String) : (sortStrings l).Sorted strLe := by
  unfold sortStrings
  exact @List.sorted_insertionSort String strLe _
    ⟨fun a b => pyLeCh_total a.data b.data⟩
    ⟨fun a b c h1 h2 => pyLeCh_trans a.data b.data c.data h1 h2⟩ l

lemma sortStrings_perm (l : List String) : (sortStrings l).Perm l :=
  List.perm_insertionSort strLe l

/-! ## Claim C3 helpers: Python dict keys -/

lemma dictInsert_map_fst (d : List (String × α)) (k : String) (v : α) :
    (dictInsert d k v).map Prod.fst =
      if d.any (fun p => p.1 == k) then d.map Prod.fst else d.map Prod.fst ++ [k] := by
  unfold dictInsert
  split_ifs with h
  · rw [List.map_map]
    apply List.map_congr_left
    intro p _
    by_cases hp : (p.1 == k) = true
    · simp [Function.comp, hp]
    · simp [Function.comp, hp]
  · simp

lemma mem_dictInsert_fst (d : List (String × α)) (k : String) (v : α) (s : String) :
    s ∈ (dictInsert d k v).map Prod.fst ↔ s ∈ d.map Prod.fst ∨ s = k := by
  rw [dictInsert_map_fst]
  split_ifs with h
  · constructor
    · exact Or.inl
    · rintro (hs | rfl)
      · exact hs
      · obtain ⟨p, hp, hpk⟩ := List.any_eq_true.mp h
        exact List.mem_map.mpr ⟨p, hp, eq_of_beq hpk⟩
  · rw [List.mem_append, List.mem_singleton]

lemma nodup_dictInsert (d : List (String × α)) (k : String) (v : α)
    (h : (d.map Prod.fst).Nodup) : ((dictInsert d k v).map Prod.fst).Nodup := by
  rw [dictInsert_map_fst]
  split_ifs with hany
  · exact h
  · refine List.Nodup.append h (List.nodup_singleton k) ?_
    intro s hs hk
    rw [List.mem_singleton] at hk
    subst hk
    obtain ⟨p, hp, hpk⟩ := List.mem_map.mp hs
    have hbeq : (p.1 == s) = true := beq_iff_eq.mpr hpk
    exact absurd (List.any_eq_true.mpr ⟨p, hp, hbeq⟩) hany

lemma foldl_dictInsert_nodup :
    ∀ (l : List (String × α)) (d : List (String × α)),
      (d.map Prod.fst).Nodup →
      ((l.foldl (fun d p => dictInsert d p.1 p.2) d).map Prod.fst).Nodup
  | [], _, h => h
  | p :: l, d, h =>
    foldl_dictInsert_nodup l (dictInsert d p.1 p.2) (nodup_dictInsert _ _ _ h)

lemma mem_foldl_dictInsert_fst :
    ∀ (l : List (String × α)) (d : List (String × α)) (s : String),
      s ∈ (l.foldl (fun d p => dictInsert d p.1 p.2) d).map Prod.fst ↔
        s ∈ d.map Prod.fst ∨ s ∈ l.map Prod.fst
  | [], d, s => by simp
  | p :: l, d, s => by
    rw [List.foldl_cons, mem_foldl_dictInsert_fst l (dictInsert d p.1 p.2) s,
      mem_dictInsert_fst, List.map_cons, List.mem_cons]
    tauto

lemma buildDict_nodup (l : List (String × α)) : ((buildDict l).map Prod.fst).Nodup :=
  foldl_dictInsert_nodup l [] (by simp)

lemma mem_buildDict_fst (l : List (String × α)) (s : String) :
    s ∈ (buildDict l).map Prod.fst ↔ s ∈ l.map Prod.fst := by
  unfold buildDict
  rw [mem_foldl_dictInsert_fst]
  simp

lemma dictInsert_fresh (d : List (String × α)) (k : String) (v : α)
    (h : k ∉ d.map Prod.fst) : dictInsert d k v = d ++ [(k, v)] := by
  unfold dictInsert
  rw [if_neg]
  intro hany
  obtain ⟨p, hp, hpk⟩ := List.any_eq_true.mp hany
  exact h (List.mem_map.mpr ⟨p, hp, eq_of_beq hpk⟩)

lemma foldl_dictInsert_fresh :
    ∀ (l : List (String × α)) (d : List (String × α)),
      (l.map Prod.fst).Nodup →
      (∀ s, s ∈ d.map Prod.fst → s ∉ l.map Prod.fst) →
      l.foldl (fun d p => dictInsert d p.1 p.2) d = d ++ l
  | [], d, _, _ => by simp
  | p :: l, d, hn, hdisj => by
    have hn' : (p.1 :: l.map Prod.fst).Nodup := by
      rw [← List.map_cons]
      exact hn
    obtain ⟨hhead, htail⟩ := List.nodup_cons.mp hn'
    rw [List.foldl_cons, dictInsert_fresh d p.1 p.2
      (fun hmem => hdisj p.1 hmem (by simp))]
    rw [foldl_dictInsert_fresh l (d ++ [(p.1, p.2)]) htail ?_]
    · simp
    · intro s hs
      rw [List.map_append, List.mem_append] at hs
      rcases hs with hs | hs
      · intro hsl
        apply hdisj s hs
        rw [List.map_cons]
        exact List.mem_cons_of_mem _ hsl
      · rw [List.map_cons, List.map_nil, List.mem_singleton] at hs
        subst hs
        exact hhead

lemma buildDict_eq_self (l : List (String × α)) (h : (l.map Prod.fst).Nodup) :
    buildDict l = l := by
  unfold buildDict
  rw [foldl_dictInsert_fresh l [] h (by simp)]
  rfl

/-! ## Claim C3 helpers: labels contain no underscore, key injectivity -/

lemma splitCh_ne_nil (sep : Char) : ∀ l : List Char, splitCh sep l ≠ []
  | [] => by simp [splitCh]
  | c :: cs => by
    unfold splitCh
    cases h : splitCh sep cs with
    | nil => simp
    | cons p ps => split_ifs <;> simp

lemma splitCh_cons_eq (sep c : Char) (cs : List Char) (q : List Char)
    (qs : List (List Char)) (h : splitCh sep cs = q :: qs) :
    splitCh sep (c :: cs) = if c = sep then [] :: q :: qs else (c :: q) :: qs := by
  unfold splitCh
  rw [h]

lemma sep_not_mem_splitCh (sep : Char) :
    ∀ (l : List Char) (p : List Char), p ∈ splitCh sep l → sep ∉ p
  | [], p, hp => by
    rw [show splitCh sep [] = [[]] from rfl, List.mem_singleton] at hp
    subst hp
    simp
  | c :: cs, p, hp => by
    cases h : splitCh sep cs with
    | nil => exact absurd h (splitCh_ne_nil sep cs)
    | cons q qs =>
      rw [splitCh_cons_eq sep c cs q qs h] at hp
      by_cases hc : c = sep
      · rw [if_pos hc] at hp
        rcases List.mem_cons.mp hp with rfl | hp2
        · simp
        · exact sep_not_mem_splitCh sep cs p (h ▸ hp2)
      · rw [if_neg hc] at hp
        rcases List.mem_cons.mp hp with rfl | hp2
        · intro hmem
          rcases List.mem_cons.mp hmem with heq | hmem2
          · exact hc heq.symm
          · exact sep_not_mem_splitCh sep cs q (h ▸ List.mem_cons_self q qs) hmem2
        · exact sep_not_mem_splitCh sep cs p (h ▸ List.mem_cons_of_mem q hp2)

lemma kmerLabel_no_underscore (f : String) : '_' ∉ (kmerLabel f).data := by
  unfold kmerLabel
  show '_' ∉ (splitCh '_' ((splitCh '/' f.data).getLastD [])).headD []
  cases h : splitCh '_' ((splitCh '/' f.data).getLastD []) with
  | nil => exact absurd h (splitCh_ne_nil _ _)
  | cons p ps =>
    rw [List.headD_cons]
    exact sep_not_mem_splitCh '_' _ p (h ▸ List.mem_cons_self p ps)

lemma append_underscore_inj :
    ∀ (a c t u : List Char), '_' ∉ a → '_' ∉ c →
      a ++ '_' :: t = c ++ '_' :: u → a = c ∧ t = u
  | [], [], t, u, _, _, h => ⟨rfl, by simpa using h⟩
  | [], c :: cs, t, u, _, hc, h => by
    exfalso
    simp only [List.nil_append, List.cons_append, List.cons.injEq] at h
    exact hc (h.1 ▸ List.mem_cons_self _ _)
  | a :: as, [], t, u, ha, _, h => by
    exfalso
    simp only [List.nil_append, List.cons_append, List.cons.injEq] at h
    exact ha (h.1 ▸ List.mem_cons_self _ _)
  | a :: as, c :: cs, t, u, ha, hc, h => by
    simp only [List.cons_append, List.cons.injEq] at h
    obtain ⟨rfl, h2⟩ := h
    obtain ⟨h3, h4⟩ := append_underscore_inj as cs t u
      (fun hm => ha (List.mem_cons_of_mem _ hm))
      (fun hm => hc (List.mem_cons_of_mem _ hm)) h2
    exact ⟨by rw [h3], h4⟩

lemma vsKey_inj {k1 k2 k3 k4 : String}
    (h1 : '_' ∉ k1.data) (h3 : '_' ∉ k3.data)
    (h : vsKey k1 k2 = vsKey k3 k4) : k1 = k3 ∧ k2 = k4 := by
  unfold vsKey at h
  have hd := congrArg String.data h
  rw [String.data_append, String.data_append, String.data_append,
    String.data_append, List.append_assoc, List.append_assoc] at hd
  have hd' : k1.data ++ '_' :: ('v' :: 's' :: '_' :: k2.data)
      = k3.data ++ '_' :: ('v' :: 's' :: '_' :: k4.data) := hd
  obtain ⟨ha, hb⟩ := append_underscore_inj _ _ _ _ h1 h3 hd'
  refine ⟨String.ext ha, String.ext ?_⟩
  simpa using hb

/-! ## Claim C3 helpers: the pair loop -/

lemma allPairs_length : ∀ l : List String, 2 * (allPairs l).length = l.length * (l.length - 1)
  | [] => rfl
  | k :: ks => by
    have ih := allPairs_length ks
    simp only [allPairs, List.length_append, List.length_map, List.length_cons]
    cases hk : ks.length with
    | zero =>
      rw [hk] at ih
      omega
    | succ n =>
      rw [hk] at ih
      rw [Nat.add_sub_cancel] at ih
      have hgoal : (n + 1 + 1) * (n + 1 + 1 - 1) = (n + 1) * n + 2 * (n + 1) := by
        rw [Nat.add_sub_cancel]
        ring
      omega

lemma allPairs_count (l : List String) :
    (allPairs l).length = l.length * (l.length - 1) / 2 := by
  have h := allPairs_length l
  omega

lemma mem_allPairs : ∀ (l : List String) (p : String × String),
    p ∈ allPairs l → p.1 ∈ l ∧ p.2 ∈ l
  | k :: ks, p, hp => by
    simp only [allPairs] at hp
    rcases List.mem_append.mp hp with h | h
    · obtain ⟨k2, hk2, rfl⟩ := List.mem_map.mp h
      exact ⟨List.mem_cons_self _ _, List.mem_cons_of_mem _ hk2⟩
    · obtain ⟨h1, h2⟩ := mem_allPairs ks p h
      exact ⟨List.mem_cons_of_mem _ h1, List.mem_cons_of_mem _ h2⟩

lemma allPairs_rel {R : String → String → Prop} :
    ∀ {l : List String}, l.Pairwise R → ∀ p ∈ allPairs l, R p.1 p.2 := by
  intro l
  induction l with
  | nil =>
    intro _ p hp
    simp [allPairs] at hp
  | cons k ks ih =>
    intro hpw p hp
    simp only [allPairs] at hp
    rcases List.mem_append.mp hp with h | h
    · obtain ⟨k2, hk2, rfl⟩ := List.mem_map.mp h
      exact (List.pairwise_cons.mp hpw).1 k2 hk2
    · exact ih (List.pairwise_cons.mp hpw).2 p h

lemma allPairs_vsKey_nodup :
    ∀ l : List String, l.Pairwise strLt → (∀ s ∈ l, '_' ∉ s.data) →
      ((allPairs l).map (fun p => vsKey p.1 p.2)).Nodup
  | [], _, _ => List.nodup_nil
  | k :: ks, hpw, hund => by
    simp only [allPairs, List.map_append, List.map_map]
    obtain ⟨hk, hks⟩ := List.pairwise_cons.mp hpw
    have hkund : '_' ∉ k.data := hund k (List.mem_cons_self _ _)
    refine List.Nodup.append ?_ ?_ ?_
    · refine List.Nodup.map_on ?_ ?_
      · intro x _ y _ hxy
        exact (vsKey_inj hkund hkund hxy).2
      · exact hks.imp (fun h => h.2)
    · exact allPairs_vsKey_nodup ks hks (fun s hs => hund s (List.mem_cons_of_mem _ hs))
    · intro key hkey1 hkey2
      obtain ⟨k2, _, hkeq⟩ := List.mem_map.mp hkey1
      obtain ⟨p, hp, hpeq⟩ := List.mem_map.mp hkey2
      have hp1 : p.1 ∈ ks := (mem_allPairs ks p hp).1
      have hkp : k = p.1 :=
        (vsKey_inj hkund (hund p.1 (List.mem_cons_of_mem _ hp1))
          (hkeq.trans hpeq.symm)).1
      exact (hk p.1 hp1).2 hkp

lemma mapE_ok_fst {σ β : Type} {f : α → Except Unit (σ × β)} {keyf : α → σ}
    (hf : ∀ a v, f a = .ok v → v.1 = keyf a) :
    ∀ (l : List α) (r : List (σ × β)), mapE f l = .ok r → r.map Prod.fst = l.map keyf
  | [], r, h => by
    injection h with h
    rw [← h]
    rfl
  | a :: l, r, h => by
    revert h
    cases ea : f a with
    | error e =>
      intro h
      simp only [mapE, ea] at h
      exact Except.noConfusion h
    | ok v =>
      cases el : mapE f l with
      | error e =>
        intro h
        simp only [mapE, ea, el] at h
        exact Except.noConfusion h
      | ok vs =>
        intro h
        simp only [mapE, ea, el] at h
        injection h with h
        rw [← h, List.map_cons, List.map_cons, hf a v ea, mapE_ok_fst hf l vs el]

/-! ## Claim C3: pairwise comparison structure -/

/-- C3: when `analyze_mappability_changes` returns, the comparison dict
has exactly `n * (n-1) / 2` entries for the `n` distinct k-mer labels of
the input files (the keys of the returned data dict, which are exactly
the labels of the files, without duplicates), its keys are pairwise
distinct, and every key is `"{lesser}_vs_{greater}"` for two labels with
`lesser` strictly before `greater` in sorted order — in particular there
is no self-comparison. -/
theorem c3_pairwise_comparisons (loader : String → TrackSet) (files : List String)
    (results data : List (String × TrackSet))
    (h : analyze_mappability_changes loader files = .ok (results, data)) :
    results.length = data.length * (data.length - 1) / 2 ∧
    (results.map Prod.fst).Nodup ∧
    (∀ key ∈ results.map Prod.fst, ∃ k1 k2, k1 ∈ data.map Prod.fst ∧
      k2 ∈ data.map Prod.fst ∧ strLt k1 k2 ∧ key = vsKey k1 k2) ∧
    (data.map Prod.fst).Nodup ∧
    (∀ s, s ∈ data.map Prod.fst ↔ s ∈ files.map kmerLabel) := by
  unfold analyze_mappability_changes at h
  cases he : mapE (comparePair (loadedData loader files))
      (allPairs (sortStrings ((loadedData loader files).map Prod.fst))) with
  | error e =>
    rw [he] at h
    exact Except.noConfusion h
  | ok resList =>
    rw [he] at h
    injection h with h
    have hres : buildDict resList = results := congrArg Prod.fst h
    have hdata : loadedData loader files = data := congrArg Prod.snd h
    subst hres hdata
    have hdnodup : ((loadedData loader files).map Prod.fst).Nodup := buildDict_nodup _
    have hdmem : ∀ s, s ∈ (loadedData loader files).map Prod.fst ↔
        s ∈ files.map kmerLabel := by
      intro s
      rw [show loadedData loader files
          = buildDict (files.map (fun f => (kmerLabel f, loader f))) from rfl,
        mem_buildDict_fst, List.map_map]
      exact Iff.rfl
    have hperm : (sortStrings ((loadedData loader files).map Prod.fst)).Perm
        ((loadedData loader files).map Prod.fst) := sortStrings_perm _
    have hksnodup : (sortStrings ((loadedData loader files).map Prod.fst)).Nodup :=
      hperm.nodup_iff.mpr hdnodup
    have hsorted := sortStrings_sorted ((loadedData loader files).map Prod.fst)
    have hpw : (sortStrings ((loadedData loader files).map Prod.fst)).Pairwise strLt :=
      (hsorted.and hksnodup).imp (fun hh => ⟨hh.1, hh.2⟩)
    have hund : ∀ s ∈ sortStrings ((loadedData loader files).map Prod.fst),
        '_' ∉ s.data := by
      intro s hs
      obtain ⟨f, _, rfl⟩ := List.mem_map.mp ((hdmem s).mp (hperm.mem_iff.mp hs))
      exact kmerLabel_no_underscore f
    have hkeys : resList.map Prod.fst =
        (allPairs (sortStrings ((loadedData loader files).map Prod.fst))).map
          (fun p => vsKey p.1 p.2) := by
      refine mapE_ok_fst ?_ _ resList he
      intro a v hv
      unfold comparePair at hv
      cases hc : compare_mappability ((List.lookup a.1 (loadedData loader files)).getD [])
          ((List.lookup a.2 (loadedData loader files)).getD []) with
      | error e =>
        rw [hc] at hv
        exact Except.noConfusion hv
      | ok diff =>
        rw [hc] at hv
        injection hv with hv
        rw [← hv]
    have hrknodup : (resList.map Prod.fst).Nodup := by
      rw [hkeys]
      exact allPairs_vsKey_nodup _ hpw hund
    rw [buildDict_eq_self resList hrknodup]
    refine ⟨?_, hrknodup, ?_, hdnodup, hdmem⟩
    · have h1 : resList.length =
          (allPairs (sortStrings ((loadedData loader files).map Prod.fst))).length := by
        have h2 := congrArg List.length hkeys
        simpa using h2
      have h3 : (sortStrings ((loadedData loader files).map Prod.fst)).length
          = (loadedData loader files).length := by
        have h4 := hperm.length_eq
        simpa using h4
      rw [h1, allPairs_count, h3]
    · intro key hkey
      rw [hkeys] at hkey
      obtain ⟨p, hp, rfl⟩ := List.mem_map.mp hkey
      obtain ⟨hp1, hp2⟩ := mem_allPairs _ p hp
      exact ⟨p.1, p.2, hperm.mem_iff.mp hp1, hperm.mem_iff.mp hp2,
        allPairs_rel hpw p hp, rfl⟩

unseal Rat.add Rat.sub Rat.mul Rat.inv in
/-- C3 witness: three track files with labels `21`, `31`, `41` produce
exactly `3 = 3*2/2` comparison entries, keyed `21_vs_31`, `21_vs_41`,
`31_vs_41`. -/
theorem c3_witness :
    ([("21_vs_31", [("chr1", [(0 : ℚ)])]), ("21_vs_41", [("chr1", [(0 : ℚ)])]),
        ("31_vs_41", [("chr1", [(0 : ℚ)])])].map Prod.fst).Nodup ∧
      ([("21_vs_31", [("chr1", [(0 : ℚ)])]), ("21_vs_41", [("chr1", [(0 : ℚ)])]),
        ("31_vs_41", [("chr1", [(0 : ℚ)])])] :
          List (String × TrackSet)).length = 3 * (3 - 1) / 2 := by
  have h := c3_pairwise_comparisons (fun _ => [("chr1", [1])])
    ["21_map.bw", "31_map.bw", "41_map.bw"]
    [("21_vs_31", [("chr1", [0])]), ("21_vs_41", [("chr1", [0])]),
      ("31_vs_41", [("chr1", [0])])]
    [("21", [("chr1", [1])]), ("31", [("chr1", [1])]), ("41", [("chr1", [1])])]
    rfl
  exact ⟨h.2.1, h.1⟩
